import Mathlib

/-!
# github-user-activity

A shallow embedding of `main.go` (package `main` of labasubagia/github-user-activity):
the event record, `event.Format`, `fetchEvents`, `run` and `main`, together with the parts
of the Go standard library they call (`fmt.Sprintf` with the verbs `%v` and `%s`,
`strconv`'s `%g` layout of a float64, `strings.Title`, the conversion `string(int)`).

Conventions of the embedding

* A Go `string` is a Lean `String`. Strings that come out of `encoding/json` are valid
  UTF-8, so the runes `strings.Title` ranges over are the characters of the Lean string.
* A value of type `any` inside a decoded payload is a value of `Any`: `encoding/json`
  stores `nil`, `bool`, `float64`, `string`, `[]any` and `map[string]any` there.
* A `map[string]any` is an association list; indexing takes the first binding of the key
  and yields `nil` when there is none (Go's zero value of `any`).
* A run-time panic (a failed type assertion) is the result `none`.
* The network, the URL check of `http.NewRequest` and the JSON decoder are parameters
  (`Env`); what the program does to the outside world is recorded as a list of `Effect`s.
-/

namespace GithubUserActivity

/-! ## float64 and its `%v` layout (package strconv) -/

/-- A finite float64 as `strconv` sees it after the shortest conversion
(`ryuFtoaShortest` filling a `decimalSlice`): the sign, the digit bytes `d` and the position
`dp` of the decimal point, the value being `0.d₀d₁… × 10^dp`. `nd` of the Go struct is
`d.length`. JSON has no NaN and no infinity, so a decoded number is always finite. -/
structure float64 where
  neg : Bool
  d : List Char
  dp : Int
  deriving DecidableEq, Repr

/-- The byte `byte(n) + '0'` of `fmtE`. -/
def digitByte (n : Nat) : Char :=
  Char.ofNat ((n % 256 + 48) % 256)

/-- Trailing zeros removed, as `ryuDigits` trims them. -/
def trimZeros (ds : List Char) : List Char :=
  (ds.reverse.dropWhile (fun c => c == '0')).reverse

/-- The float64 holding the integer `n`, for `n < 2^53` (where it is exact):
`ryuFtoaShortest` returns `nd = dp = 0` for a zero mantissa and, for an exact integer
with fewer bits than the mantissa, the decimal digits of the integer with the trailing
zeros trimmed, `dp` being the number of digits before the trimming. -/
def float64.ofNat (n : Nat) : float64 :=
  if n = 0 then { neg := false, d := [], dp := 0 }
  else { neg := false, d := trimZeros (Nat.toDigits 10 n), dp := (Nat.toDigits 10 n).length }

/-- Go `strconv.fmtE` (`%e: -d.ddddde±dd`) with `fmt = 'e'`. -/
def fmtE (neg : Bool) (d : List Char) (dp : Int) (prec : Int) : List Char :=
  let sign := if neg then ['-'] else []
  let first := match d with
    | [] => '0'
    | c :: _ => c
  let more :=
    if prec > 0 then
      let m := min d.length (prec.toNat + 1)
      '.' :: ((d.take m).drop 1 ++ List.replicate (prec.toNat + 1 - max 1 m) '0')
    else []
  let exp : Int := if d.length = 0 then 0 else dp - 1
  let esign := if exp < 0 then '-' else '+'
  let e := exp.natAbs
  let edigits :=
    if e < 10 then ['0', digitByte e]
    else if e < 100 then [digitByte (e / 10), digitByte (e % 10)]
    else [digitByte (e / 100), digitByte ((e / 10) % 256 % 10), digitByte (e % 10)]
  sign ++ first :: more ++ 'e' :: esign :: edigits

/-- Go `strconv.fmtF` (`%f: -ddddddd.ddddd`). -/
def fmtF (neg : Bool) (d : List Char) (dp : Int) (prec : Int) : List Char :=
  let sign := if neg then ['-'] else []
  let integer :=
    if dp > 0 then
      let m := min d.length dp.toNat
      d.take m ++ List.replicate (dp.toNat - m) '0'
    else ['0']
  let fraction :=
    if prec > 0 then
      '.' :: (List.range prec.toNat).map (fun (i : Nat) =>
        let j : Int := dp + (i : Int)
        if 0 ≤ j ∧ j < (d.length : Int) then d.getD j.toNat '0' else '0')
    else []
  sign ++ integer ++ fraction

/-- Go `strconv.formatDigits` for `fmt = 'g'` in shortest mode (`prec = digs.nd`), which is
what `%v` asks for a float64: `%e` is used when the exponent is below -4 or at least 6. -/
def formatDigits (x : float64) : List Char :=
  let prec : Int := x.d.length
  let eprec : Int := 6
  let exp := x.dp - 1
  if exp < -4 ∨ exp ≥ eprec then
    fmtE x.neg x.d x.dp (prec - 1)
  else
    fmtF x.neg x.d x.dp (max ((x.d.length : Int) - x.dp) 0)

/-! ## Values of type `any` and package fmt -/

/-- What `encoding/json` stores in an `any`. -/
inductive Any where
  | nil
  | bool (b : Bool)
  | float64 (x : float64)
  | string (s : String)
  | slice (xs : List Any)
  | map (m : List (String × Any))

/-- The index expression `m[key]` on a `map[string]any`. -/
def index (m : List (String × Any)) (key : String) : Any :=
  match m.lookup key with
  | some v => v
  | none => Any.nil

/-- The type assertion `x.(string)`; `none` is the run-time panic. -/
def assertString : Any → Option String
  | .string s => some s
  | _ => none

/-- The type assertion `x.(map[string]any)`; `none` is the run-time panic. -/
def assertMap : Any → Option (List (String × Any))
  | .map m => some m
  | _ => none

/-- The two verbs the program uses. -/
inductive Verb where
  | v
  | s
  deriving DecidableEq

/-- Entries of a map in the order fmt prints them: sorted by key (`fmtsort.Sort`). -/
def sortByKey (kvs : List (String × String)) : List (String × String) :=
  kvs.insertionSort (fun a b => a.1 ≤ b.1)

mutual
/-- Go `(*pp).printValue` at depth > 0 on the values `encoding/json` produces. Under `%s` a
bool or a float64 is a bad verb, printed as `%!s(type=value)`. -/
def printValue (verb : Verb) : Any → String
  | .nil => "<nil>"
  | .bool b =>
    let t := if b then "true" else "false"
    match verb with
    | .v => t
    | .s => "%!s(bool=" ++ t ++ ")"
  | .float64 x =>
    let t := String.mk (formatDigits x)
    match verb with
    | .v => t
    | .s => "%!s(float64=" ++ t ++ ")"
  | .string s => s
  | .slice xs => "[" ++ " ".intercalate (printValues verb xs) ++ "]"
  | .map m =>
    "map[" ++ " ".intercalate ((sortByKey (printEntries verb m)).map
      (fun kv => kv.1 ++ ":" ++ kv.2)) ++ "]"
/-- The elements of a slice, each printed by `printValue`. -/
def printValues (verb : Verb) : List Any → List String
  | [] => []
  | x :: xs => printValue verb x :: printValues verb xs
/-- The entries of a map, each value printed by `printValue`. -/
def printEntries (verb : Verb) : List (String × Any) → List (String × String)
  | [] => []
  | (k, x) :: m => (k, printValue verb x) :: printEntries verb m
end

/-- Go `(*pp).printArg`: one operand of `Sprintf` under `%v` or `%s`. A nil operand under
`%s` is a bad verb. -/
def printArg (verb : Verb) : Any → String
  | .nil =>
    match verb with
    | .v => "<nil>"
    | .s => "%!s(<nil>)"
  | x => printValue verb x

/-! ## strings.Title -/

/-- The tables of package unicode that `strings.Title` consults for runes above
`unicode.MaxASCII`; below it the Go code decides without them. -/
structure UnicodeTables where
  toTitle : Char → Char
  isLetter : Char → Bool
  isDigit : Char → Bool
  isSpace : Char → Bool

/-- Tables for ASCII-only text: above `MaxASCII` no rune is a letter, a digit or a space and
none has a title case. -/
def asciiTables : UnicodeTables :=
  { toTitle := fun r => r, isLetter := fun _ => false, isDigit := fun _ => false,
    isSpace := fun _ => false }

/-- Go `strings.isSeparator`. -/
def isSeparator (U : UnicodeTables) (r : Char) : Bool :=
  if r.toNat ≤ 0x7F then
    if '0'.toNat ≤ r.toNat ∧ r.toNat ≤ '9'.toNat then false
    else if 'a'.toNat ≤ r.toNat ∧ r.toNat ≤ 'z'.toNat then false
    else if 'A'.toNat ≤ r.toNat ∧ r.toNat ≤ 'Z'.toNat then false
    else if r = '_' then false
    else true
  else if U.isLetter r || U.isDigit r then false
  else U.isSpace r

/-- Go `unicode.ToTitle`. -/
def ToTitle (U : UnicodeTables) (r : Char) : Char :=
  if r.toNat ≤ 0x7F then
    if 'a'.toNat ≤ r.toNat ∧ r.toNat ≤ 'z'.toNat then Char.ofNat (r.toNat - 32) else r
  else U.toTitle r

/-- The closure of `strings.Title` run by `strings.Map` over the runes, `prev` being its
captured variable. -/
def titleMap (U : UnicodeTables) : Char → List Char → List Char
  | _, [] => []
  | prev, r :: rs => (if isSeparator U prev then ToTitle U r else r) :: titleMap U r rs

/-- Go `strings.Title`. -/
def Title (U : UnicodeTables) (s : String) : String :=
  String.mk (titleMap U ' ' s.data)

/-! ## The event record and `Format` -/

/-- Go `type eventType string`. -/
abbrev eventType := String

/-- Go constant `CreateEvent`. -/
def CreateEvent : eventType := "CreateEvent"
/-- Go constant `DeleteEvent`. -/
def DeleteEvent : eventType := "DeleteEvent"
/-- Go constant `PushEvent`. -/
def PushEvent : eventType := "PushEvent"
/-- Go constant `PullRequestEvent`. -/
def PullRequestEvent : eventType := "PullRequestEvent"
/-- Go constant `WatchEvent`. -/
def WatchEvent : eventType := "WatchEvent"
/-- Go constant `ForkEvent`. -/
def ForkEvent : eventType := "ForkEvent"
/-- Go constant `ReleaseEvent`. -/
def ReleaseEvent : eventType := "ReleaseEvent"
/-- Go constant `IssueEvent`. -/
def IssueEvent : eventType := "IssueEvent"

/-- The anonymous struct of the field `Repo`. -/
structure Repo where
  Name : String

/-- Go `type event struct`; the field `Type` is written `Type_`. -/
structure event where
  Type_ : eventType
  Payload : List (String × Any)
  Repo : Repo

/-- Go `func (e event) Format() string`; `none` is a run-time panic. -/
def event.Format (U : UnicodeTables) (e : event) : Option String :=
  if e.Type_ = PushEvent then
    some ("Pushed " ++ printArg .v (index e.Payload "distinct_size") ++ " commit(s) to "
      ++ e.Repo.Name)
  else if e.Type_ = WatchEvent then
    some ("Starred " ++ e.Repo.Name)
  else if e.Type_ = ForkEvent then
    some ("Forked " ++ e.Repo.Name)
  else if e.Type_ = CreateEvent then
    let refType := index e.Payload "ref_type"
    let ref := index e.Payload "ref"
    match refType with
    | .string "repository" =>
      some ("Created " ++ printArg .v refType ++ " " ++ e.Repo.Name)
    | _ =>
      some ("Created " ++ printArg .v refType ++ " " ++ printArg .v ref ++ " in "
        ++ e.Repo.Name)
  else if e.Type_ = DeleteEvent then
    let refType := index e.Payload "ref_type"
    let ref := index e.Payload "ref"
    match refType with
    | .string "repository" =>
      some ("Deleted " ++ printArg .v refType ++ " " ++ e.Repo.Name)
    | _ =>
      some ("Deleted " ++ printArg .v refType ++ " " ++ printArg .v ref ++ " in "
        ++ e.Repo.Name)
  else if e.Type_ = PullRequestEvent then
    match assertMap (index e.Payload "pull_request") with
    | none => none
    | some m =>
      let pr := index m "number"
      match assertString (index e.Payload "action") with
      | none => none
      | some action =>
        some (Title U action ++ " pull request #" ++ printArg .v pr ++ " in " ++ e.Repo.Name)
  else if e.Type_ = ReleaseEvent then
    match assertString (index e.Payload "action") with
    | none => none
    | some action =>
      match assertMap (index e.Payload "release") with
      | none => none
      | some m =>
        some (Title U action ++ " release " ++ printArg .s (index m "tag_name") ++ " in "
          ++ e.Repo.Name)
  else if e.Type_ = IssueEvent then
    match assertString (index e.Payload "action") with
    | none => none
    | some action => some (Title U action ++ " issue in " ++ e.Repo.Name)
  else
    some (e.Type_ ++ " in " ++ e.Repo.Name)

/-! ## `fetchEvents`, `run` and `main` -/

/-- A Go `error` value: one made by this program with `errors.New`, or one handed back by
net/http or encoding/json (`lib`), each with the text its `Error` method returns. -/
inductive Error where
  | New (text : String)
  | lib (text : String)
  deriving DecidableEq, Repr

/-- The method `Error() string`. -/
def Error.message : Error → String
  | .New text => text
  | .lib text => text

/-- The part of `*http.Request` the program sets. -/
structure Request where
  Method : String
  URL : String
  deriving DecidableEq, Repr

/-- The part of `*http.Response` the program reads; `Body` is the content of the stream. -/
structure Response where
  StatusCode : Int
  Body : String

/-- What the program does to the outside world, in the order it does it. -/
inductive Effect where
  | Do (req : Request)
  | Decode
  | Close
  | Println (line : String)
  deriving DecidableEq, Repr

/-- The outside world: `http.NewRequest` (which rejects a URL that does not parse),
`http.DefaultClient.Do`, and `json.NewDecoder(body).Decode` into a `[]event`. An error
is given by its text. -/
structure Env where
  NewRequest : String → String → Except String Request
  Do : Request → Except String Response
  Decode : String → Except String (List event)

/-- The first byte of the Go conversion `string(v)` of an integer `v`: the UTF-8 encoding of
the code point `v` (`runtime.intstring`, `encoderune`), which is that of U+FFFD when `v` is
not a valid code point. -/
def intstringByte0 (v : Int) : Nat :=
  if v < 0 ∨ 0x10FFFF < v ∨ (0xD800 ≤ v ∧ v ≤ 0xDFFF) then 0xEF
  else if v ≤ 0x7F then v.toNat
  else if v ≤ 0x7FF then 0xC0 + v.toNat / 64
  else if v ≤ 0xFFFF then 0xE0 + v.toNat / 4096
  else 0xF0 + v.toNat / 262144

/-- What a call of `fetchEvents` returns (a nil slice is `[]`, a nil error `none`) and
what it did. -/
structure FetchResult where
  events : List event
  err : Option Error
  trace : List Effect

/-- Go `func fetchEvents(username string) ([]event, error)`. The deferred
`res.Body.Close()` is registered after the status checks, so it runs on the two paths
that come after it. -/
def fetchEvents (env : Env) (username : String) : FetchResult :=
  let uri := "https://api.github.com/users/" ++ username ++ "/events"
  match env.NewRequest "GET" uri with
  | .error _ => { events := [], err := none, trace := [] }
  | .ok req =>
    match env.Do req with
    | .error err => { events := [], err := some (.lib err), trace := [.Do req] }
    | .ok res =>
      if res.StatusCode = 404 then
        { events := [], err := some (.New "username not found"), trace := [.Do req] }
      else if intstringByte0 res.StatusCode = '4'.toNat then
        { events := [], err := some (.New "client error"), trace := [.Do req] }
      else if intstringByte0 res.StatusCode = '5'.toNat then
        { events := [], err := some (.New "server error"), trace := [.Do req] }
      else
        match env.Decode res.Body with
        | .error err =>
          { events := [], err := some (.lib err), trace := [.Do req, .Decode, .Close] }
        | .ok events =>
          { events := events, err := none, trace := [.Do req, .Decode, .Close] }

/-- The Go builtin `copy(dst, src)` on slices, giving the new content of `dst`. -/
def copy (dst src : List String) : List String :=
  src.take (min dst.length src.length) ++ dst.drop (min dst.length src.length)

/-- What a call of `run` or `main` did, and how it ended: `some r` when it returned `r`,
`none` when it panicked. -/
structure Ran (α : Type) where
  trace : List Effect
  ret : Option α

/-- The loop `for _, event := range events { fmt.Println(event.Format()) }` of `run`,
after the effects `trace`. -/
def printEvents (U : UnicodeTables) : List Effect → List event → Ran (Option Error)
  | trace, [] => { trace := trace, ret := some none }
  | trace, e :: es =>
    match e.Format U with
    | none => { trace := trace, ret := none }
    | some line => printEvents U (trace ++ [.Println line]) es

/-- Go `func run() error`, `osArgs` being `os.Args`. -/
def run (U : UnicodeTables) (env : Env) (osArgs : List String) : Ran (Option Error) :=
  match osArgs with
  | [] => { trace := [], ret := none }
  | _ :: rest =>
    let args := copy [""] rest
    match args[0]? with
    | none => { trace := [], ret := none }
    | some username =>
      if username = "" then
        { trace := [], ret := some (some (.New "please provide username")) }
      else
        let r := fetchEvents env username
        match r.err with
        | some err => { trace := r.trace, ret := some (some err) }
        | none =>
          let trace :=
            if r.events.length = 0 then r.trace ++ [.Println "no recent activity"]
            else r.trace
          printEvents U trace r.events

/-- Go `func main()`. -/
def main (U : UnicodeTables) (env : Env) (osArgs : List String) : Ran Unit :=
  let r := run U env osArgs
  match r.ret with
  | none => { trace := r.trace, ret := none }
  | some none => { trace := r.trace, ret := some () }
  | some (some err) =>
    { trace := r.trace ++ [.Println ("ERROR: " ++ err.message)], ret := some () }

/-- The lines written to standard output, in order. -/
def stdoutLines : List Effect → List String
  | [] => []
  | .Println line :: rest => line :: stdoutLines rest
  | _ :: rest => stdoutLines rest

/-- A world in which the request is accepted, the server answers with status `status`
and body `body`, and decoding the body gives `decoded`. -/
def Env.answering (status : Int) (body : String) (decoded : Except String (List event)) :
    Env :=
  { NewRequest := fun method url => .ok { Method := method, URL := url },
    Do := fun _ => .ok { StatusCode := status, Body := body },
    Decode := fun _ => decoded }

/-- A world in which `http.NewRequest` rejects every URL with the error text `msg`. -/
def Env.rejecting (msg : String) : Env :=
  { NewRequest := fun _ _ => .error msg,
    Do := fun _ => .error "unreachable",
    Decode := fun _ => .error "unreachable" }

/-- A world in which the request is accepted and the transport fails with the error text
`msg`. -/
def Env.failing (msg : String) : Env :=
  { NewRequest := fun method url => .ok { Method := method, URL := url },
    Do := fun _ => .error msg,
    Decode := fun _ => .error "unreachable" }

/-- The bytes written to standard output: `fmt.Println` writes its line and a newline. -/
def stdout (trace : List Effect) : String :=
  String.join ((stdoutLines trace).map (fun line => line ++ "\n"))

/-- The events with a payload on which a type assertion of `Format` fails: a PullRequest
event whose `pull_request` is not an object or whose `action` is not a string, a Release
event whose `action` is not a string or whose `release` is not an object, an Issue event
whose `action` is not a string. -/
def failsAssertion (e : event) : Prop :=
  (e.Type_ = PullRequestEvent ∧
    ((¬ ∃ m, index e.Payload "pull_request" = .map m) ∨
     (¬ ∃ a, index e.Payload "action" = .string a))) ∨
  (e.Type_ = ReleaseEvent ∧
    ((¬ ∃ a, index e.Payload "action" = .string a) ∨
     (¬ ∃ m, index e.Payload "release" = .map m))) ∨
  (e.Type_ = IssueEvent ∧ ¬ ∃ a, index e.Payload "action" = .string a)

/-! ## Titlecase in the words of the specification -/

/-- The word-by-word pass of `specTitlecase`; `afterSpace` says that the previous character
was white space (or that there is none). -/
def specTitlecaseFrom : Bool → List Char → List Char
  | _, [] => []
  | afterSpace, c :: cs =>
    (if afterSpace && !c.isWhitespace then c.toUpper else c)
      :: specTitlecaseFrom c.isWhitespace cs

/-- Titlecase as the specification words it ("capitalizing the first letter of each
whitespace-separated word"): the first character of each maximal run of non-white-space
characters is upper-cased and every other character is left unchanged. It is compared
with `Title`, the function the program calls, on ASCII text. -/
def specTitlecase (s : String) : String :=
  String.mk (specTitlecaseFrom true s.data)

/-! ## Lemmas on the layout of integers -/

theorem dropWhile_zero_split (l : List Char) :
    List.replicate (l.length - (l.dropWhile (fun c => c == '0')).length) '0'
      ++ l.dropWhile (fun c => c == '0') = l := by
  induction l with
  | nil => simp
  | cons a t ih =>
    by_cases h : a = '0'
    · subst h
      have hle : (t.dropWhile (fun c => c == '0')).length ≤ t.length :=
        (List.dropWhile_sublist _).length_le
      have : (('0' :: t).dropWhile (fun c => c == '0')) = t.dropWhile (fun c => c == '0') := by
        simp [List.dropWhile]
      rw [this]
      have e : ('0' :: t).length - (t.dropWhile (fun c => c == '0')).length
          = (t.length - (t.dropWhile (fun c => c == '0')).length) + 1 := by
        simp only [List.length_cons]; omega
      rw [e, List.replicate_succ, List.cons_append, ih]
    · have hb : (a == '0') = false := by simpa using h
      have : ((a :: t).dropWhile (fun c => c == '0')) = a :: t := by
        simp [List.dropWhile, hb]
      rw [this]; simp

theorem trimZeros_pad (ds : List Char) :
    trimZeros ds ++ List.replicate (ds.length - (trimZeros ds).length) '0' = ds := by
  have h := dropWhile_zero_split ds.reverse
  have h2 := congrArg List.reverse h
  simp only [List.reverse_append, List.reverse_replicate, List.reverse_reverse,
    List.length_reverse] at h2
  simpa [trimZeros] using h2

theorem trimZeros_length_le (ds : List Char) : (trimZeros ds).length ≤ ds.length := by
  have := (List.dropWhile_sublist (fun c => c == '0') (l := ds.reverse)).length_le
  simpa [trimZeros] using this

theorem toDigits_length_pos (n : Nat) : 0 < (Nat.toDigits 10 n).length := by
  unfold Nat.toDigits
  rw [Nat.toDigitsCore]
  split
  · simp
  · rw [Nat.toDigitsCore_lens_eq]; omega

theorem toDigits_length_le (n e : Nat) (h : n < 10 ^ e) (he : 0 < e) :
    (Nat.toDigits 10 n).length ≤ e :=
  Nat.toDigitsCore_length 10 (by decide) (n + 1) n e h he

theorem fmtF_integer (d : List Char) (k : Nat) (hk : 0 < k) (hd : d.length ≤ k) :
    fmtF false d (k : Int) (max ((d.length : Int) - (k : Int)) 0)
      = d ++ List.replicate (k - d.length) '0' := by
  have hz : max ((d.length : Int) - (k : Int)) 0 = 0 := by omega
  have hk2 : (k : Int) > 0 := by omega
  rw [hz]
  simp [fmtF, hk2, Nat.min_eq_left hd, List.take_length]

theorem formatDigits_ofNat (n : Nat) (h : n < 1000000) :
    String.mk (formatDigits (float64.ofNat n)) = toString n := by
  by_cases h0 : n = 0
  · subst h0; decide
  · have hpos := toDigits_length_pos n
    have hle := toDigits_length_le n 6 (by simpa using h) (by decide)
    have htl := trimZeros_length_le (Nat.toDigits 10 n)
    have hpad := trimZeros_pad (Nat.toDigits 10 n)
    have hexp : ¬ (((Nat.toDigits 10 n).length : Int) - 1 < -4
        ∨ ((Nat.toDigits 10 n).length : Int) - 1 ≥ 6) := by omega
    show String.mk (formatDigits (float64.ofNat n)) = (Nat.toDigits 10 n).asString
    simp only [float64.ofNat, h0, if_false, formatDigits]
    rw [if_neg hexp, fmtF_integer _ _ hpos htl, hpad]
    rfl

/-! ## Lemmas on `strings.Title` -/

theorem titleMap_length (U : UnicodeTables) (prev : Char) (l : List Char) :
    (titleMap U prev l).length = l.length := by
  induction l generalizing prev with
  | nil => rfl
  | cons r rs ih => simp [titleMap, ih]

theorem titleMap_head (U : UnicodeTables) (prev : Char) (l : List Char) (c : Char)
    (h : l[0]? = some c) :
    (titleMap U prev l)[0]? = some (if isSeparator U prev then ToTitle U c else c) := by
  cases l with
  | nil => simp at h
  | cons r rs =>
    simp only [List.getElem?_cons_zero, Option.some.injEq] at h
    subst h
    simp [titleMap]

theorem titleMap_next (U : UnicodeTables) (prev : Char) (l : List Char) (i : Nat)
    (p c : Char) (hp : l[i]? = some p) (hc : l[i + 1]? = some c) :
    (titleMap U prev l)[i + 1]? = some (if isSeparator U p then ToTitle U c else c) := by
  induction l generalizing prev i with
  | nil => simp at hp
  | cons r rs ih =>
    simp only [List.getElem?_cons_succ] at hc
    simp only [titleMap, List.getElem?_cons_succ]
    cases i with
    | zero =>
      simp only [List.getElem?_cons_zero, Option.some.injEq] at hp
      subst hp
      exact titleMap_head U r rs c hc
    | succ j =>
      simp only [List.getElem?_cons_succ] at hp
      exact ih r j hp hc

theorem isSeparator_ascii (U : UnicodeTables) (p : Char) (hp : p.toNat ≤ 0x7F) :
    isSeparator U p = false ↔ (p.isAlphanum = true ∨ p = '_') := by
  have hu : p = '_' ↔ p.toNat = 95 := by
    constructor
    · intro h; subst h; rfl
    · intro h
      apply Char.ext
      apply UInt32.ext
      exact h
  simp only [isSeparator, hp, if_true, Char.isAlphanum, Char.isAlpha, Char.isUpper,
    Char.isLower, Char.isDigit, Bool.or_eq_true, Bool.and_eq_true, decide_eq_true_eq,
    UInt32.le_def]
  have e0 : ('0'.toNat) = 48 := rfl
  have e9 : ('9'.toNat) = 57 := rfl
  have ea : ('a'.toNat) = 97 := rfl
  have ez : ('z'.toNat) = 122 := rfl
  have eA : ('A'.toNat) = 65 := rfl
  have eZ : ('Z'.toNat) = 90 := rfl
  have k1 : ∀ k : UInt32, (k.toBitVec ≤ p.val.toBitVec) ↔ k.toNat ≤ p.toNat :=
    fun _ => Iff.rfl
  have k2 : ∀ k : UInt32, (p.val.toBitVec ≤ k.toBitVec) ↔ p.toNat ≤ k.toNat :=
    fun _ => Iff.rfl
  simp only [k1, k2, e0, e9, ea, ez, eA, eZ, hu]
  have n65 : (65 : UInt32).toNat = 65 := rfl
  have n90 : (90 : UInt32).toNat = 90 := rfl
  have n97 : (97 : UInt32).toNat = 97 := rfl
  have n122 : (122 : UInt32).toNat = 122 := rfl
  have n48 : (48 : UInt32).toNat = 48 := rfl
  have n57 : (57 : UInt32).toNat = 57 := rfl
  rw [n65, n90, n97, n122, n48, n57]
  generalize p.toNat = n
  split_ifs <;> simp <;> omega

theorem ToTitle_ascii (U : UnicodeTables) (c : Char) (hc : c.toNat ≤ 0x7F) :
    ToTitle U c = c.toUpper := by
  have ea : ('a'.toNat) = 97 := rfl
  have ez : ('z'.toNat) = 122 := rfl
  simp only [ToTitle, hc, if_true, Char.toUpper, ea, ez, ge_iff_le]

/-! ## Lemmas on `index` and `printArg` -/

theorem printArg_string (verb : Verb) (s : String) : printArg verb (.string s) = s := by
  cases verb <;> rfl

theorem printArg_v_float64 (x : float64) :
    printArg .v (.float64 x) = String.mk (formatDigits x) := rfl

/-! ## Claims -/

/-- C1 (the code departs from it): with status 400, and with status 500, `fetchEvents`
returns neither "client error" nor "server error": the first byte of `string(400)` is 0xC6
and that of `string(500)` is 0xC7, so both checks fail, the body is decoded and the decoded
events are returned with a nil error. -/
theorem fetchEvents_status_400_500_no_error :
    intstringByte0 400 = 0xC6 ∧ intstringByte0 500 = 0xC7 ∧
    (fetchEvents (Env.answering 400 "[]" (.ok [])) "octocat").err = none ∧
    (fetchEvents (Env.answering 500 "[]" (.ok [])) "octocat").err = none ∧
    Effect.Decode ∈ (fetchEvents (Env.answering 400 "[]" (.ok [])) "octocat").trace ∧
    Effect.Decode ∈ (fetchEvents (Env.answering 500 "[]" (.ok [])) "octocat").trace := by
  decide

/-- C2 (as stated it fails): a PullRequest event whose payload has no `pull_request` key
makes `Format` panic on the type assertion, and so does an Issue event with an empty
payload. -/
theorem Format_panics_on_missing_key :
    event.Format asciiTables
      { Type_ := PullRequestEvent, Payload := [("action", .string "opened")],
        Repo := { Name := "octo/repo" } } = none ∧
    event.Format asciiTables
      { Type_ := IssueEvent, Payload := [], Repo := { Name := "octo/repo" } } = none := by
  decide

/-- C2 (amended): `Format` returns a display string for every event whose type is not
PullRequestEvent, ReleaseEvent or IssueEvent, whatever its payload, and for every event of
these three types whose payload `action` is a string and, for PullRequestEvent and
ReleaseEvent, whose `pull_request` (respectively `release`) is a JSON object. -/
theorem Format_returns (U : UnicodeTables) (e : event)
    (hpr : e.Type_ = PullRequestEvent →
      (∃ m, index e.Payload "pull_request" = .map m) ∧
      (∃ a, index e.Payload "action" = .string a))
    (hrel : e.Type_ = ReleaseEvent →
      (∃ a, index e.Payload "action" = .string a) ∧
      (∃ m, index e.Payload "release" = .map m))
    (hiss : e.Type_ = IssueEvent → ∃ a, index e.Payload "action" = .string a) :
    ∃ line, e.Format U = some line := by
  unfold event.Format
  split_ifs with h1 h2 h3 h4 h5 h6 h7 h8
  · exact ⟨_, rfl⟩
  · exact ⟨_, rfl⟩
  · exact ⟨_, rfl⟩
  · dsimp only; split <;> exact ⟨_, rfl⟩
  · dsimp only; split <;> exact ⟨_, rfl⟩
  · obtain ⟨⟨m, hm⟩, ⟨a, ha⟩⟩ := hpr h6
    simp only [hm, ha, assertMap, assertString]
    exact ⟨_, rfl⟩
  · obtain ⟨⟨a, ha⟩, ⟨m, hm⟩⟩ := hrel h7
    simp only [hm, ha, assertMap, assertString]
    exact ⟨_, rfl⟩
  · obtain ⟨a, ha⟩ := hiss h8
    simp only [ha, assertString]
    exact ⟨_, rfl⟩
  · exact ⟨_, rfl⟩

/-- C2 (amended), at a PullRequest event with `action` "opened" and `pull_request`
`{"number": 7}`. -/
theorem Format_returns_witness :
    ∃ line, event.Format asciiTables
      { Type_ := PullRequestEvent,
        Payload := [("action", .string "opened"),
          ("pull_request", .map [("number", .float64 (float64.ofNat 7))])],
        Repo := { Name := "octo/repo" } } = some line :=
  Format_returns asciiTables _
    (fun _ => ⟨⟨_, rfl⟩, ⟨_, rfl⟩⟩)
    (fun h => absurd h (by decide))
    (fun h => absurd h (by decide))

/-- C3: once a response has been received, `fetchEvents` returns the error
"username not found" exactly when the status is 404; in that case it returns no events and
has not decoded the body. -/
theorem fetchEvents_not_found_iff (env : Env) (username : String) (req : Request)
    (res : Response)
    (hreq : env.NewRequest "GET" ("https://api.github.com/users/" ++ username ++ "/events")
      = .ok req)
    (hres : env.Do req = .ok res) :
    ((fetchEvents env username).err = some (.New "username not found")
        ↔ res.StatusCode = 404) ∧
    (res.StatusCode = 404 →
      (fetchEvents env username).events = [] ∧
      Effect.Decode ∉ (fetchEvents env username).trace) := by
  unfold fetchEvents
  simp only [hreq, hres]
  by_cases h404 : res.StatusCode = 404
  · simp [h404]
  · simp only [h404, if_false, false_implies, and_true, iff_false]
    split_ifs
    · simp
    · simp
    · cases env.Decode res.Body <;> simp

/-- C3, at the status 404. -/
theorem fetchEvents_not_found_iff_witness :
    ((fetchEvents (Env.answering 404 "" (.error "EOF")) "octocat").err
        = some (.New "username not found") ↔ (404 : Int) = 404) ∧
    ((404 : Int) = 404 →
      (fetchEvents (Env.answering 404 "" (.error "EOF")) "octocat").events = [] ∧
      Effect.Decode ∉ (fetchEvents (Env.answering 404 "" (.error "EOF")) "octocat").trace) :=
  fetchEvents_not_found_iff (Env.answering 404 "" (.error "EOF")) "octocat"
    { Method := "GET", URL := "https://api.github.com/users/octocat/events" }
    { StatusCode := 404, Body := "" } rfl rfl

/-- C4 (as stated it fails): a Push event whose `distinct_size` is the number 1000000
formats as "Pushed 1e+06 commit(s) to octo/repo", not with the decimal 1000000. -/
theorem Format_push_million :
    event.Format asciiTables
      { Type_ := PushEvent, Payload := [("distinct_size", .float64 (float64.ofNat 1000000))],
        Repo := { Name := "octo/repo" } } = some "Pushed 1e+06 commit(s) to octo/repo" ∧
    event.Format asciiTables
      { Type_ := PushEvent, Payload := [("distinct_size", .float64 (float64.ofNat 1000000))],
        Repo := { Name := "octo/repo" } }
      ≠ some ("Pushed " ++ toString (1000000 : Nat) ++ " commit(s) to " ++ "octo/repo") := by
  decide

/-- C4 (amended): for every repository name r and every integer n with 0 ≤ n < 1000000, a
Push event whose payload `distinct_size` is the number n formats as
"Pushed " ++ decimal(n) ++ " commit(s) to " ++ r. -/
theorem Format_push (U : UnicodeTables) (payload : List (String × Any)) (r : String)
    (n : Nat) (hn : n < 1000000)
    (hsize : index payload "distinct_size" = .float64 (float64.ofNat n)) :
    event.Format U { Type_ := PushEvent, Payload := payload, Repo := { Name := r } }
      = some ("Pushed " ++ toString n ++ " commit(s) to " ++ r) := by
  simp only [event.Format, if_true, hsize, printArg_v_float64, formatDigits_ofNat n hn]

/-- C4 (amended), at n = 3 and r = "octo/repo". -/
theorem Format_push_witness :
    event.Format asciiTables
      { Type_ := PushEvent, Payload := [("distinct_size", .float64 (float64.ofNat 3))],
        Repo := { Name := "octo/repo" } } = some "Pushed 3 commit(s) to octo/repo" :=
  Format_push asciiTables _ "octo/repo" 3 (by decide) rfl

/-- C5 (as stated it fails): a PullRequest event with action "opened" and pull request
number 1000000 formats as "Opened pull request #1e+06 in octo/repo", not with the decimal
1000000. -/
theorem Format_pull_request_million :
    event.Format asciiTables
      { Type_ := PullRequestEvent,
        Payload := [("action", .string "opened"),
          ("pull_request", .map [("number", .float64 (float64.ofNat 1000000))])],
        Repo := { Name := "octo/repo" } } = some "Opened pull request #1e+06 in octo/repo" ∧
    event.Format asciiTables
      { Type_ := PullRequestEvent,
        Payload := [("action", .string "opened"),
          ("pull_request", .map [("number", .float64 (float64.ofNat 1000000))])],
        Repo := { Name := "octo/repo" } }
      ≠ some ("Opened" ++ " pull request #" ++ toString (1000000 : Nat) ++ " in "
          ++ "octo/repo") := by
  decide

/-- C5 (amended): for every action string a, every integer n with 0 ≤ n < 1000000 and every
repository name r, a PullRequest event whose payload has `action` = a and a `pull_request`
object whose `number` is n formats as
strings.Title(a) ++ " pull request #" ++ decimal(n) ++ " in " ++ r. -/
theorem Format_pull_request (U : UnicodeTables) (payload pr : List (String × Any))
    (a r : String) (n : Nat) (hn : n < 1000000)
    (haction : index payload "action" = .string a)
    (hpr : index payload "pull_request" = .map pr)
    (hnumber : index pr "number" = .float64 (float64.ofNat n)) :
    event.Format U { Type_ := PullRequestEvent, Payload := payload, Repo := { Name := r } }
      = some (Title U a ++ " pull request #" ++ toString n ++ " in " ++ r) := by
  have h1 : (PullRequestEvent = PushEvent) = False := by decide
  have h2 : (PullRequestEvent = WatchEvent) = False := by decide
  have h3 : (PullRequestEvent = ForkEvent) = False := by decide
  have h4 : (PullRequestEvent = CreateEvent) = False := by decide
  have h5 : (PullRequestEvent = DeleteEvent) = False := by decide
  simp only [event.Format, h1, h2, h3, h4, h5, if_false, if_true, haction, hpr, hnumber,
    assertMap, assertString, printArg_v_float64, formatDigits_ofNat n hn]

/-- C5 (amended), at a = "opened", n = 42 and r = "octo/repo". -/
theorem Format_pull_request_witness :
    event.Format asciiTables
      { Type_ := PullRequestEvent,
        Payload := [("action", .string "opened"),
          ("pull_request", .map [("number", .float64 (float64.ofNat 42))])],
        Repo := { Name := "octo/repo" } }
      = some "Opened pull request #42 in octo/repo" :=
  Format_pull_request asciiTables _ [("number", .float64 (float64.ofNat 42))] "opened"
    "octo/repo" 42 (by decide) rfl rfl rfl

/-- C6: a Create (Delete) event whose payload `ref_type` is the string "repository" formats
as "Created repository " ++ repo.name ("Deleted repository " ++ repo.name), whatever the
rest of the payload holds, `ref` included. -/
theorem Format_create_delete_repository (U : UnicodeTables) (payload : List (String × Any))
    (r : String) (hrefType : index payload "ref_type" = .string "repository") :
    event.Format U { Type_ := CreateEvent, Payload := payload, Repo := { Name := r } }
      = some ("Created repository " ++ r) ∧
    event.Format U { Type_ := DeleteEvent, Payload := payload, Repo := { Name := r } }
      = some ("Deleted repository " ++ r) := by
  have c1 : (CreateEvent = PushEvent) = False := by decide
  have c2 : (CreateEvent = WatchEvent) = False := by decide
  have c3 : (CreateEvent = ForkEvent) = False := by decide
  have d1 : (DeleteEvent = PushEvent) = False := by decide
  have d2 : (DeleteEvent = WatchEvent) = False := by decide
  have d3 : (DeleteEvent = ForkEvent) = False := by decide
  have d4 : (DeleteEvent = CreateEvent) = False := by decide
  constructor
  · simp only [event.Format, c1, c2, c3, if_false, if_true, hrefType, printArg_string]
    rfl
  · simp only [event.Format, d1, d2, d3, d4, if_false, if_true, hrefType, printArg_string]
    rfl

/-- C6, at a payload whose `ref` is the string "main". -/
theorem Format_create_delete_repository_witness :
    event.Format asciiTables
      { Type_ := CreateEvent,
        Payload := [("ref", .string "main"), ("ref_type", .string "repository")],
        Repo := { Name := "octo/repo" } } = some "Created repository octo/repo" ∧
    event.Format asciiTables
      { Type_ := DeleteEvent,
        Payload := [("ref", .string "main"), ("ref_type", .string "repository")],
        Repo := { Name := "octo/repo" } } = some "Deleted repository octo/repo" :=
  Format_create_delete_repository asciiTables
    [("ref", .string "main"), ("ref_type", .string "repository")] "octo/repo" rfl

/-- C7: for every string `ref_type` other than "repository", every string `ref` and every
repository name r, a Create event formats as
"Created " ++ ref_type ++ " " ++ ref ++ " in " ++ r and a Delete event as
"Deleted " ++ ref_type ++ " " ++ ref ++ " in " ++ r. -/
theorem Format_create_delete_ref (U : UnicodeTables) (payload : List (String × Any))
    (refType ref r : String) (hne : refType ≠ "repository")
    (hrefType : index payload "ref_type" = .string refType)
    (href : index payload "ref" = .string ref) :
    event.Format U { Type_ := CreateEvent, Payload := payload, Repo := { Name := r } }
      = some ("Created " ++ refType ++ " " ++ ref ++ " in " ++ r) ∧
    event.Format U { Type_ := DeleteEvent, Payload := payload, Repo := { Name := r } }
      = some ("Deleted " ++ refType ++ " " ++ ref ++ " in " ++ r) := by
  have c1 : (CreateEvent = PushEvent) = False := by decide
  have c2 : (CreateEvent = WatchEvent) = False := by decide
  have c3 : (CreateEvent = ForkEvent) = False := by decide
  have d1 : (DeleteEvent = PushEvent) = False := by decide
  have d2 : (DeleteEvent = WatchEvent) = False := by decide
  have d3 : (DeleteEvent = ForkEvent) = False := by decide
  have d4 : (DeleteEvent = CreateEvent) = False := by decide
  constructor
  · simp only [event.Format, c1, c2, c3, if_false, if_true, hrefType, href, printArg_string]
    split
    · rename_i heq
      exact absurd (Any.string.inj heq) hne
    · rfl
  · simp only [event.Format, d1, d2, d3, d4, if_false, if_true, hrefType, href,
      printArg_string]
    split
    · rename_i heq
      exact absurd (Any.string.inj heq) hne
    · rfl

/-- C7, at `ref_type` = "branch", `ref` = "main" and r = "octo/repo". -/
theorem Format_create_delete_ref_witness :
    event.Format asciiTables
      { Type_ := CreateEvent,
        Payload := [("ref_type", .string "branch"), ("ref", .string "main")],
        Repo := { Name := "octo/repo" } } = some "Created branch main in octo/repo" ∧
    event.Format asciiTables
      { Type_ := DeleteEvent,
        Payload := [("ref_type", .string "branch"), ("ref", .string "main")],
        Repo := { Name := "octo/repo" } } = some "Deleted branch main in octo/repo" :=
  Format_create_delete_ref asciiTables
    [("ref_type", .string "branch"), ("ref", .string "main")] "branch" "main" "octo/repo"
    (by decide) rfl rfl

/-- C8: for every type string t that is none of the eight tags CreateEvent, DeleteEvent,
PushEvent, PullRequestEvent, WatchEvent, ForkEvent, ReleaseEvent, IssueEvent (compared
byte for byte), every payload and every repository name r, `Format` yields
t ++ " in " ++ r. -/
theorem Format_unrecognised (U : UnicodeTables) (t : String) (payload : List (String × Any))
    (r : String)
    (ht : t ∉ [CreateEvent, DeleteEvent, PushEvent, PullRequestEvent, WatchEvent, ForkEvent,
      ReleaseEvent, IssueEvent]) :
    event.Format U { Type_ := t, Payload := payload, Repo := { Name := r } }
      = some (t ++ " in " ++ r) := by
  simp only [List.mem_cons, List.mem_singleton, List.not_mem_nil, or_false, not_or] at ht
  obtain ⟨h1, h2, h3, h4, h5, h6, h7, h8⟩ := ht
  simp only [event.Format, h1, h2, h3, h4, h5, h6, h7, h8, if_false]

/-- C8, at the types "SponsorshipEvent", "pushevent", "Push" and "IssuesEvent" with
r = "octo/repo". -/
theorem Format_unrecognised_witness :
    event.Format asciiTables
      { Type_ := "SponsorshipEvent", Payload := [], Repo := { Name := "octo/repo" } }
      = some "SponsorshipEvent in octo/repo" ∧
    event.Format asciiTables
      { Type_ := "pushevent", Payload := [], Repo := { Name := "octo/repo" } }
      = some "pushevent in octo/repo" ∧
    event.Format asciiTables
      { Type_ := "Push", Payload := [], Repo := { Name := "octo/repo" } }
      = some "Push in octo/repo" ∧
    event.Format asciiTables
      { Type_ := "IssuesEvent", Payload := [], Repo := { Name := "octo/repo" } }
      = some "IssuesEvent in octo/repo" :=
  ⟨Format_unrecognised asciiTables "SponsorshipEvent" [] "octo/repo" (by decide),
   Format_unrecognised asciiTables "pushevent" [] "octo/repo" (by decide),
   Format_unrecognised asciiTables "Push" [] "octo/repo" (by decide),
   Format_unrecognised asciiTables "IssuesEvent" [] "octo/repo" (by decide)⟩

/-- C9 (as stated it fails): with action "re-opened" an Issue event formats as
"Re-Opened issue in octo/repo": the letter after '-' is capitalised too, whereas upper-casing
the first character of each white-space-separated word gives "Re-opened". -/
theorem Format_issue_hyphen :
    event.Format asciiTables
      { Type_ := IssueEvent, Payload := [("action", .string "re-opened")],
        Repo := { Name := "octo/repo" } } = some "Re-Opened issue in octo/repo" ∧
    specTitlecase "re-opened" = "Re-opened" ∧
    event.Format asciiTables
      { Type_ := IssueEvent, Payload := [("action", .string "re-opened")],
        Repo := { Name := "octo/repo" } }
      ≠ some (specTitlecase "re-opened" ++ " issue in " ++ "octo/repo") := by
  decide

/-- C9 (amended): for every payload whose `action` is a string a (and, for PullRequest and
Release, whose `pull_request` or `release` is an object), the formatted line of a
PullRequest, Release or Issue event begins with strings.Title(a). That string has as many
characters as a; its first character and every character that directly follows a separator
are a's converted by unicode.ToTitle, and every character that directly follows a
non-separator is a's unchanged. On ASCII characters ToTitle is upper-casing (a..z become
A..Z, everything else is unchanged) and the separators are the characters that are not a
letter, a digit or '_' (so '-' and the space are separators); above U+007F ToTitle is that
of the unicode tables and the separators are the space characters that are neither letter
nor digit. "opened" becomes "Opened" and "re-opened" becomes "Re-Opened". -/
theorem Format_action_title (U : UnicodeTables) (a r : String) :
    (∀ payload pr : List (String × Any),
      index payload "action" = .string a → index payload "pull_request" = .map pr →
      event.Format U { Type_ := PullRequestEvent, Payload := payload, Repo := { Name := r } }
        = some (Title U a ++ " pull request #" ++ printArg .v (index pr "number") ++ " in "
            ++ r)) ∧
    (∀ payload rel : List (String × Any),
      index payload "action" = .string a → index payload "release" = .map rel →
      event.Format U { Type_ := ReleaseEvent, Payload := payload, Repo := { Name := r } }
        = some (Title U a ++ " release " ++ printArg .s (index rel "tag_name") ++ " in "
            ++ r)) ∧
    (∀ payload : List (String × Any),
      index payload "action" = .string a →
      event.Format U { Type_ := IssueEvent, Payload := payload, Repo := { Name := r } }
        = some (Title U a ++ " issue in " ++ r)) ∧
    (Title U a).data.length = a.data.length ∧
    (∀ c, a.data[0]? = some c → (Title U a).data[0]? = some (ToTitle U c)) ∧
    (∀ i p c, a.data[i]? = some p → a.data[i + 1]? = some c →
      (Title U a).data[i + 1]? = some (if isSeparator U p then ToTitle U c else c)) ∧
    (∀ c : Char, c.toNat ≤ 0x7F → ToTitle U c = c.toUpper) ∧
    (∀ c : Char, 0x7F < c.toNat → ToTitle U c = U.toTitle c) ∧
    (∀ p : Char, p.toNat ≤ 0x7F →
      (isSeparator U p = false ↔ (p.isAlphanum = true ∨ p = '_'))) ∧
    (∀ p : Char, 0x7F < p.toNat →
      (isSeparator U p = true
        ↔ (U.isSpace p = true ∧ U.isLetter p = false ∧ U.isDigit p = false))) ∧
    isSeparator U '-' = true ∧ isSeparator U ' ' = true ∧
    Title U "opened" = "Opened" ∧ Title U "re-opened" = "Re-Opened" := by
  have p1 : (PullRequestEvent = PushEvent) = False := by decide
  have p2 : (PullRequestEvent = WatchEvent) = False := by decide
  have p3 : (PullRequestEvent = ForkEvent) = False := by decide
  have p4 : (PullRequestEvent = CreateEvent) = False := by decide
  have p5 : (PullRequestEvent = DeleteEvent) = False := by decide
  have r1 : (ReleaseEvent = PushEvent) = False := by decide
  have r2 : (ReleaseEvent = WatchEvent) = False := by decide
  have r3 : (ReleaseEvent = ForkEvent) = False := by decide
  have r4 : (ReleaseEvent = CreateEvent) = False := by decide
  have r5 : (ReleaseEvent = DeleteEvent) = False := by decide
  have r6 : (ReleaseEvent = PullRequestEvent) = False := by decide
  have i1 : (IssueEvent = PushEvent) = False := by decide
  have i2 : (IssueEvent = WatchEvent) = False := by decide
  have i3 : (IssueEvent = ForkEvent) = False := by decide
  have i4 : (IssueEvent = CreateEvent) = False := by decide
  have i5 : (IssueEvent = DeleteEvent) = False := by decide
  have i6 : (IssueEvent = PullRequestEvent) = False := by decide
  have i7 : (IssueEvent = ReleaseEvent) = False := by decide
  refine ⟨?_, ?_, ?_, titleMap_length U ' ' a.data, ?_, ?_, ?_, ?_, ?_, ?_,
    rfl, rfl, rfl, rfl⟩
  · intro payload pr haction hpr
    simp only [event.Format, p1, p2, p3, p4, p5, if_false, if_true, haction, hpr,
      assertMap, assertString]
  · intro payload rel haction hrel
    simp only [event.Format, r1, r2, r3, r4, r5, r6, if_false, if_true, haction, hrel,
      assertMap, assertString]
  · intro payload haction
    simp only [event.Format, i1, i2, i3, i4, i5, i6, i7, if_false, if_true, haction,
      assertString]
  · intro c hc
    have h := titleMap_head U ' ' a.data c hc
    rw [show isSeparator U ' ' = true from rfl, if_pos rfl] at h
    exact h
  · intro i p c hp hc
    exact titleMap_next U ' ' a.data i p c hp hc
  · intro c hc
    exact ToTitle_ascii U c hc
  · intro c hc
    have hn : ¬ c.toNat ≤ 0x7F := by omega
    simp only [ToTitle, hn, if_false]
  · intro p hp
    exact isSeparator_ascii U p hp
  · intro p hp
    have hn : ¬ p.toNat ≤ 0x7F := by omega
    simp only [isSeparator, hn, if_false]
    cases U.isLetter p <;> cases U.isDigit p <;> cases U.isSpace p <;> simp

/-- C9 (amended), at an Issue, a PullRequest and a Release event whose payloads carry other
keys beside the ones `Format` reads. -/
theorem Format_action_title_witness :
    event.Format asciiTables
      { Type_ := IssueEvent,
        Payload := [("issue", .map [("number", .float64 (float64.ofNat 12))]),
          ("action", .string "re-opened")],
        Repo := { Name := "octo/repo" } } = some "Re-Opened issue in octo/repo" ∧
    event.Format asciiTables
      { Type_ := PullRequestEvent,
        Payload := [("number", .float64 (float64.ofNat 7)), ("action", .string "closed"),
          ("pull_request", .map [("number", .float64 (float64.ofNat 7))])],
        Repo := { Name := "octo/repo" } } = some "Closed pull request #7 in octo/repo" ∧
    event.Format asciiTables
      { Type_ := ReleaseEvent,
        Payload := [("release", .map [("tag_name", .string "v2.0.0")]),
          ("action", .string "pre release")],
        Repo := { Name := "octo/repo" } } = some "Pre Release release v2.0.0 in octo/repo" :=
  ⟨(Format_action_title asciiTables "re-opened" "octo/repo").2.2.1 _ rfl,
   (Format_action_title asciiTables "closed" "octo/repo").1 _
      [("number", .float64 (float64.ofNat 7))] rfl rfl,
   (Format_action_title asciiTables "pre release" "octo/repo").2.1 _
      [("tag_name", .string "v2.0.0")] rfl rfl⟩

/-- C10 (as stated it fails): with action "re-opened" a Release event formats as
"Re-Opened release v1.2.0 in octo/repo", whereas upper-casing the first character of each
white-space-separated word of the action gives "Re-opened release v1.2.0 in octo/repo". -/
theorem Format_release_hyphen :
    event.Format asciiTables
      { Type_ := ReleaseEvent,
        Payload := [("action", .string "re-opened"),
          ("release", .map [("tag_name", .string "v1.2.0")])],
        Repo := { Name := "octo/repo" } } = some "Re-Opened release v1.2.0 in octo/repo" ∧
    specTitlecase "re-opened" ++ " release " ++ "v1.2.0" ++ " in " ++ "octo/repo"
      = "Re-opened release v1.2.0 in octo/repo" ∧
    event.Format asciiTables
      { Type_ := ReleaseEvent,
        Payload := [("action", .string "re-opened"),
          ("release", .map [("tag_name", .string "v1.2.0")])],
        Repo := { Name := "octo/repo" } }
      ≠ some (specTitlecase "re-opened" ++ " release " ++ "v1.2.0" ++ " in "
          ++ "octo/repo") := by
  decide

/-- C10 (amended): for every action string a, tag-name string t and repository name r, a
Release event whose payload has `action` = a and a `release` object whose `tag_name` is t
formats as strings.Title(a) ++ " release " ++ t ++ " in " ++ r. -/
theorem Format_release (U : UnicodeTables) (payload rel : List (String × Any))
    (a t r : String)
    (haction : index payload "action" = .string a)
    (hrel : index payload "release" = .map rel)
    (htag : index rel "tag_name" = .string t) :
    event.Format U { Type_ := ReleaseEvent, Payload := payload, Repo := { Name := r } }
      = some (Title U a ++ " release " ++ t ++ " in " ++ r) := by
  have h1 : (ReleaseEvent = PushEvent) = False := by decide
  have h2 : (ReleaseEvent = WatchEvent) = False := by decide
  have h3 : (ReleaseEvent = ForkEvent) = False := by decide
  have h4 : (ReleaseEvent = CreateEvent) = False := by decide
  have h5 : (ReleaseEvent = DeleteEvent) = False := by decide
  have h6 : (ReleaseEvent = PullRequestEvent) = False := by decide
  simp only [event.Format, h1, h2, h3, h4, h5, h6, if_false, if_true, haction, hrel, htag,
    assertMap, assertString, printArg_string]

/-- C10, at a = "published", t = "v1.2.0" and r = "octo/repo". -/
theorem Format_release_witness :
    event.Format asciiTables
      { Type_ := ReleaseEvent,
        Payload := [("action", .string "published"),
          ("release", .map [("tag_name", .string "v1.2.0")])],
        Repo := { Name := "octo/repo" } }
      = some "Published release v1.2.0 in octo/repo" :=
  Format_release asciiTables _ [("tag_name", .string "v1.2.0")] "published" "v1.2.0"
    "octo/repo" rfl rfl rfl

/-! ## Lemmas on `run` and `main` -/

theorem stdoutLines_append (t u : List Effect) :
    stdoutLines (t ++ u) = stdoutLines t ++ stdoutLines u := by
  induction t with
  | nil => rfl
  | cons a t ih => cases a <;> simp [stdoutLines, ih]

theorem stdoutLines_fetchEvents (env : Env) (username : String) :
    stdoutLines (fetchEvents env username).trace = [] := by
  simp only [fetchEvents]
  cases env.NewRequest "GET" ("https://api.github.com/users/" ++ username ++ "/events") with
  | error _ => rfl
  | ok req =>
    dsimp only
    cases env.Do req with
    | error _ => rfl
    | ok res =>
      dsimp only
      split_ifs
      · rfl
      · rfl
      · rfl
      · cases env.Decode res.Body <;> rfl

theorem printEvents_lines (U : UnicodeTables) (es : List event) (lines : List String)
    (trace : List Effect) (h : es.map (event.Format U) = lines.map some) :
    printEvents U trace es
      = { trace := trace ++ lines.map Effect.Println, ret := some none } := by
  induction es generalizing lines trace with
  | nil =>
    cases lines with
    | nil => simp [printEvents]
    | cons l ls => simp at h
  | cons e es ih =>
    cases lines with
    | nil => simp at h
    | cons l ls =>
      simp only [List.map_cons, List.cons.injEq] at h
      simp only [printEvents, h.1, ih ls _ h.2, List.map_cons, List.append_assoc,
        List.singleton_append]

theorem stdoutLines_println (lines : List String) :
    stdoutLines (lines.map Effect.Println) = lines := by
  induction lines with
  | nil => rfl
  | cons l ls ih => simp [stdoutLines, ih]

theorem run_of_args (U : UnicodeTables) (env : Env) (prog username : String)
    (rest : List String) (hne : username ≠ "") :
    run U env (prog :: username :: rest)
      = match (fetchEvents env username).err with
        | some err => { trace := (fetchEvents env username).trace, ret := some (some err) }
        | none =>
          printEvents U
            (if (fetchEvents env username).events.length = 0 then
              (fetchEvents env username).trace ++ [.Println "no recent activity"]
            else (fetchEvents env username).trace)
            (fetchEvents env username).events := by
  simp [run, copy, hne]

theorem segment_of_append_eq (A L B t : String) (h : A ++ L ++ B = t) :
    L.data <:+: t.data := by
  subst h
  exact ⟨A.data, B.data, by simp [String.data_append]⟩

theorem leading_of_append_eq (L B t : String) (h : L ++ B = t) : L.data <:+: t.data := by
  subst h
  exact ⟨[], B.data, by simp [String.data_append]⟩

theorem leading_of_append3_eq (L X Y B t : String) (h : L ++ X ++ Y ++ B = t) :
    L.data <:+: t.data := by
  subst h
  exact ⟨[], X.data ++ Y.data ++ B.data, by simp [String.data_append]⟩

theorem Format_ne_no_recent_activity (U : UnicodeTables) (e : event) :
    e.Format U ≠ some "no recent activity" := by
  intro h
  unfold event.Format at h
  split_ifs at h
  · have := segment_of_append_eq _ " commit(s) to " _ _ (Option.some.inj h)
    revert this; decide
  · have := leading_of_append_eq "Starred " _ _ (Option.some.inj h)
    revert this; decide
  · have := leading_of_append_eq "Forked " _ _ (Option.some.inj h)
    revert this; decide
  · dsimp only at h
    split at h
    · have := leading_of_append3_eq "Created " _ _ _ _ (Option.some.inj h)
      revert this; decide
    · have := segment_of_append_eq _ " in " _ _ (Option.some.inj h)
      revert this; decide
  · dsimp only at h
    split at h
    · have := leading_of_append3_eq "Deleted " _ _ _ _ (Option.some.inj h)
      revert this; decide
    · have := segment_of_append_eq _ " in " _ _ (Option.some.inj h)
      revert this; decide
  · split at h
    · exact Option.noConfusion h
    · dsimp only at h
      split at h
      · exact Option.noConfusion h
      · have := segment_of_append_eq _ " in " _ _ (Option.some.inj h)
        revert this; decide
  · split at h
    · exact Option.noConfusion h
    · split at h
      · exact Option.noConfusion h
      · have := segment_of_append_eq _ " in " _ _ (Option.some.inj h)
        revert this; decide
  · split at h
    · exact Option.noConfusion h
    · have := segment_of_append_eq _ " issue in " _ _ (Option.some.inj h)
      revert this; decide
  · have := segment_of_append_eq _ " in " _ _ (Option.some.inj h)
    revert this; decide

theorem printEvents_no_recent_activity (U : UnicodeTables) (es : List event)
    (trace : List Effect) (h : "no recent activity" ∉ stdoutLines trace) :
    "no recent activity" ∉ stdoutLines (printEvents U trace es).trace := by
  induction es generalizing trace with
  | nil => simpa [printEvents] using h
  | cons e es ih =>
    simp only [printEvents]
    cases hf : e.Format U with
    | none => simpa using h
    | some line =>
      apply ih
      rw [stdoutLines_append]
      intro hmem
      rcases List.mem_append.mp hmem with h1 | h1
      · exact h h1
      · simp only [stdoutLines, List.mem_singleton] at h1
        exact Format_ne_no_recent_activity U e (by rw [hf, h1])

/-- C11: when `fetchEvents` returns a nil error and no events, `run` writes the single line
"no recent activity" and nothing else and returns a nil error; when it returns a nil error
and at least one event, no line "no recent activity" is written. -/
theorem run_no_recent_activity (U : UnicodeTables) (env : Env) (prog username : String)
    (rest : List String) (hname : username ≠ "")
    (herr : (fetchEvents env username).err = none) :
    ((fetchEvents env username).events = [] →
      stdoutLines (run U env (prog :: username :: rest)).trace = ["no recent activity"] ∧
      stdout (run U env (prog :: username :: rest)).trace = "no recent activity\n" ∧
      (run U env (prog :: username :: rest)).ret = some none) ∧
    ((fetchEvents env username).events ≠ [] →
      "no recent activity" ∉ stdoutLines (run U env (prog :: username :: rest)).trace) := by
  rw [run_of_args U env prog username rest hname, herr]
  dsimp only
  constructor
  · intro hnil
    have hl : stdoutLines (printEvents U
        ((fetchEvents env username).trace ++ [.Println "no recent activity"]) []).trace
        = ["no recent activity"] := by
      simp [printEvents, stdoutLines_append, stdoutLines_fetchEvents, stdoutLines]
    simp only [hnil, List.length_nil, if_true]
    refine ⟨hl, ?_, rfl⟩
    rw [stdout, hl]
    rfl
  · intro hne
    have hlen : ¬ (fetchEvents env username).events.length = 0 := by
      simpa [List.length_eq_zero] using hne
    rw [if_neg hlen]
    apply printEvents_no_recent_activity
    simp [stdoutLines_fetchEvents]

/-- C11, at a server that answers 200 with the empty array, and at one that answers with
one Watch event. -/
theorem run_no_recent_activity_witness :
    (stdoutLines (run asciiTables (Env.answering 200 "[]" (.ok [])) ["gh", "octocat"]).trace
        = ["no recent activity"] ∧
      stdout (run asciiTables (Env.answering 200 "[]" (.ok [])) ["gh", "octocat"]).trace
        = "no recent activity\n" ∧
      (run asciiTables (Env.answering 200 "[]" (.ok [])) ["gh", "octocat"]).ret
        = some none) ∧
    "no recent activity" ∉
      stdoutLines (run asciiTables
        (Env.answering 200 "[...]"
          (.ok [{ Type_ := WatchEvent, Payload := [], Repo := { Name := "octo/repo" } }]))
        ["gh", "octocat"]).trace :=
  ⟨(run_no_recent_activity asciiTables (Env.answering 200 "[]" (.ok [])) "gh" "octocat" []
      (by decide) rfl).1 rfl,
   (run_no_recent_activity asciiTables
      (Env.answering 200 "[...]"
        (.ok [{ Type_ := WatchEvent, Payload := [], Repo := { Name := "octo/repo" } }]))
      "gh" "octocat" [] (by decide) rfl).2 (List.cons_ne_nil _ _)⟩

theorem map_eq_map_some_filterMap (U : UnicodeTables) (es : List event)
    (h : ∀ e ∈ es, e.Format U ≠ none) :
    es.map (event.Format U) = (es.filterMap (event.Format U)).map some := by
  induction es with
  | nil => rfl
  | cons e es ih =>
    have he : e.Format U ≠ none := h e (List.mem_cons_self _ _)
    have hes : ∀ x ∈ es, x.Format U ≠ none := fun x hx => h x (List.mem_cons_of_mem _ hx)
    cases hf : e.Format U with
    | none => exact absurd hf he
    | some line => simp [List.filterMap_cons, hf, ih hes]

/-- C12: when `fetchEvents` returns a nil error and a non-empty sequence of events on each
of which `Format` returns a line, the lines `run` writes to standard output are exactly the
formatted events, one per event and in the order of the events, so that the output is
Format(e_1) ++ "\n" ++ ... ++ Format(e_n) ++ "\n", and `run` returns a nil error. -/
theorem run_prints_events (U : UnicodeTables) (env : Env) (prog username : String)
    (rest : List String) (hname : username ≠ "")
    (herr : (fetchEvents env username).err = none)
    (hne : (fetchEvents env username).events ≠ [])
    (hfmt : ∀ e ∈ (fetchEvents env username).events, e.Format U ≠ none) :
    (stdoutLines (run U env (prog :: username :: rest)).trace).map some
      = (fetchEvents env username).events.map (event.Format U) ∧
    stdout (run U env (prog :: username :: rest)).trace
      = String.join (((fetchEvents env username).events.filterMap (event.Format U)).map
          (fun line => line ++ "\n")) ∧
    (run U env (prog :: username :: rest)).ret = some none := by
  have hlen : ¬ (fetchEvents env username).events.length = 0 := by
    simpa [List.length_eq_zero] using hne
  have hmap := map_eq_map_some_filterMap U _ hfmt
  have hrun : run U env (prog :: username :: rest)
      = { trace := (fetchEvents env username).trace
            ++ ((fetchEvents env username).events.filterMap (event.Format U)).map
                Effect.Println,
          ret := some none } := by
    rw [run_of_args U env prog username rest hname, herr]
    dsimp only
    rw [if_neg hlen, printEvents_lines U _ _ _ hmap]
  have hl : stdoutLines (run U env (prog :: username :: rest)).trace
      = (fetchEvents env username).events.filterMap (event.Format U) := by
    rw [hrun]
    simp [stdoutLines_append, stdoutLines_fetchEvents, stdoutLines_println]
  refine ⟨?_, ?_, ?_⟩
  · rw [hl, hmap]
  · rw [stdout, hl]
  · rw [hrun]

/-- C12, at a server that answers with a Push event and a Watch event. -/
theorem run_prints_events_witness :
    (stdoutLines (run asciiTables
        (Env.answering 200 "[...]"
          (.ok [{ Type_ := PushEvent,
                  Payload := [("distinct_size", .float64 (float64.ofNat 3))],
                  Repo := { Name := "octo/repo" } },
                { Type_ := WatchEvent, Payload := [], Repo := { Name := "octo/demo" } }]))
        ["gh", "octocat"]).trace).map some
      = [some "Pushed 3 commit(s) to octo/repo", some "Starred octo/demo"] ∧
    stdout (run asciiTables
        (Env.answering 200 "[...]"
          (.ok [{ Type_ := PushEvent,
                  Payload := [("distinct_size", .float64 (float64.ofNat 3))],
                  Repo := { Name := "octo/repo" } },
                { Type_ := WatchEvent, Payload := [], Repo := { Name := "octo/demo" } }]))
        ["gh", "octocat"]).trace
      = "Pushed 3 commit(s) to octo/repo\nStarred octo/demo\n" ∧
    (run asciiTables
        (Env.answering 200 "[...]"
          (.ok [{ Type_ := PushEvent,
                  Payload := [("distinct_size", .float64 (float64.ofNat 3))],
                  Repo := { Name := "octo/repo" } },
                { Type_ := WatchEvent, Payload := [], Repo := { Name := "octo/demo" } }]))
        ["gh", "octocat"]).ret = some none :=
  run_prints_events asciiTables
    (Env.answering 200 "[...]"
      (.ok [{ Type_ := PushEvent,
              Payload := [("distinct_size", .float64 (float64.ofNat 3))],
              Repo := { Name := "octo/repo" } },
            { Type_ := WatchEvent, Payload := [], Repo := { Name := "octo/demo" } }]))
    "gh" "octocat" [] (by decide) rfl (List.cons_ne_nil _ _)
    (by
      intro e he
      simp only [fetchEvents, Env.answering] at he
      rcases List.mem_cons.mp he with h | h
      · subst h; decide
      · rcases List.mem_cons.mp h with h | h
        · subst h; decide
        · cases h)

/-- C13: with no argument after the program name, or with the empty string as first
argument, `run` returns the error "please provide username" without any effect (no HTTP
request), and the whole output of `main` is the line "ERROR: please provide username". -/
theorem run_without_username (U : UnicodeTables) (env : Env) (prog : String)
    (rest : List String) :
    (run U env [prog]).ret = some (some (.New "please provide username")) ∧
    (run U env [prog]).trace = [] ∧
    (run U env (prog :: "" :: rest)).ret = some (some (.New "please provide username")) ∧
    (run U env (prog :: "" :: rest)).trace = [] ∧
    (main U env [prog]).trace = [.Println "ERROR: please provide username"] ∧
    stdout (main U env [prog]).trace = "ERROR: please provide username\n" ∧
    (main U env (prog :: "" :: rest)).trace = [.Println "ERROR: please provide username"] ∧
    stdout (main U env (prog :: "" :: rest)).trace = "ERROR: please provide username\n" := by
  refine ⟨rfl, rfl, ?_, ?_, rfl, rfl, ?_, ?_⟩ <;> simp [run, main, copy] <;> rfl

/-- C14: when `fetchEvents` returns an error, `run` writes nothing to standard output (no
formatted event, no "no recent activity") and returns that error, and the whole standard
output of `main` is the single line "ERROR: " ++ message of the error. A transport failure,
a status 404 and a body that fails to decode are such outcomes. -/
theorem main_prints_fetch_error (U : UnicodeTables) (env : Env) (prog username : String)
    (rest : List String) (err : Error) (hname : username ≠ "")
    (herr : (fetchEvents env username).err = some err) :
    stdoutLines (run U env (prog :: username :: rest)).trace = [] ∧
    (run U env (prog :: username :: rest)).ret = some (some err) ∧
    stdoutLines (main U env (prog :: username :: rest)).trace = ["ERROR: " ++ err.message] ∧
    stdout (main U env (prog :: username :: rest)).trace
      = "ERROR: " ++ err.message ++ "\n" := by
  have hrun : run U env (prog :: username :: rest)
      = { trace := (fetchEvents env username).trace, ret := some (some err) } := by
    rw [run_of_args U env prog username rest hname, herr]
  have hmain : stdoutLines (main U env (prog :: username :: rest)).trace
      = ["ERROR: " ++ err.message] := by
    simp only [main, hrun, stdoutLines_append, stdoutLines_fetchEvents, stdoutLines,
      List.nil_append]
  refine ⟨?_, ?_, hmain, ?_⟩
  · rw [hrun]; exact stdoutLines_fetchEvents env username
  · rw [hrun]
  · rw [stdout, hmain]
    simp [String.join]

/-- C14, at a transport failure, at a status 404 and at a body that fails to decode. -/
theorem main_prints_fetch_error_witness :
    (stdoutLines (run asciiTables (Env.failing "dial tcp: i/o timeout")
        ["gh", "octocat"]).trace = [] ∧
      (run asciiTables (Env.failing "dial tcp: i/o timeout") ["gh", "octocat"]).ret
        = some (some (.lib "dial tcp: i/o timeout")) ∧
      stdoutLines (main asciiTables (Env.failing "dial tcp: i/o timeout")
        ["gh", "octocat"]).trace = ["ERROR: dial tcp: i/o timeout"] ∧
      stdout (main asciiTables (Env.failing "dial tcp: i/o timeout")
        ["gh", "octocat"]).trace = "ERROR: dial tcp: i/o timeout\n") ∧
    (stdoutLines (run asciiTables (Env.answering 404 "" (.ok [])) ["gh", "octocat"]).trace
        = [] ∧
      (run asciiTables (Env.answering 404 "" (.ok [])) ["gh", "octocat"]).ret
        = some (some (.New "username not found")) ∧
      stdoutLines (main asciiTables (Env.answering 404 "" (.ok [])) ["gh", "octocat"]).trace
        = ["ERROR: username not found"] ∧
      stdout (main asciiTables (Env.answering 404 "" (.ok [])) ["gh", "octocat"]).trace
        = "ERROR: username not found\n") ∧
    (stdoutLines (run asciiTables (Env.answering 200 "[" (.error "unexpected EOF"))
        ["gh", "octocat"]).trace = [] ∧
      (run asciiTables (Env.answering 200 "[" (.error "unexpected EOF"))
        ["gh", "octocat"]).ret = some (some (.lib "unexpected EOF")) ∧
      stdoutLines (main asciiTables (Env.answering 200 "[" (.error "unexpected EOF"))
        ["gh", "octocat"]).trace = ["ERROR: unexpected EOF"] ∧
      stdout (main asciiTables (Env.answering 200 "[" (.error "unexpected EOF"))
        ["gh", "octocat"]).trace = "ERROR: unexpected EOF\n") :=
  ⟨main_prints_fetch_error asciiTables (Env.failing "dial tcp: i/o timeout") "gh" "octocat"
      [] (.lib "dial tcp: i/o timeout") (by decide) rfl,
   main_prints_fetch_error asciiTables (Env.answering 404 "" (.ok [])) "gh" "octocat" []
      (.New "username not found") (by decide) rfl,
   main_prints_fetch_error asciiTables (Env.answering 200 "[" (.error "unexpected EOF"))
      "gh" "octocat" [] (.lib "unexpected EOF") (by decide) rfl⟩

theorem intstringByte0_eq_iff (s : Int) (b : Nat) (hb : b < 0x80) :
    intstringByte0 s = b ↔ s = (b : Int) := by
  unfold intstringByte0
  split_ifs <;> omega

/-- C15: once a response with a status s other than 404 has been received, `fetchEvents`
returns "client error" exactly when the first byte of `string(s)` is '4', that is when
s = 52, and "server error" exactly when it is '5', that is when s = 53; hence for every s in
400..599 other than 404 it returns neither of the two and decodes the body. -/
theorem fetchEvents_status_byte (env : Env) (username : String) (req : Request)
    (res : Response)
    (hreq : env.NewRequest "GET" ("https://api.github.com/users/" ++ username ++ "/events")
      = .ok req)
    (hres : env.Do req = .ok res) (h404 : res.StatusCode ≠ 404) :
    ((fetchEvents env username).err = some (.New "client error")
      ↔ intstringByte0 res.StatusCode = '4'.toNat) ∧
    (intstringByte0 res.StatusCode = '4'.toNat ↔ res.StatusCode = 52) ∧
    ((fetchEvents env username).err = some (.New "server error")
      ↔ intstringByte0 res.StatusCode = '5'.toNat) ∧
    (intstringByte0 res.StatusCode = '5'.toNat ↔ res.StatusCode = 53) ∧
    (400 ≤ res.StatusCode → res.StatusCode ≤ 599 →
      (fetchEvents env username).err ≠ some (.New "client error") ∧
      (fetchEvents env username).err ≠ some (.New "server error") ∧
      Effect.Decode ∈ (fetchEvents env username).trace) := by
  have e4 : '4'.toNat = 52 := rfl
  have e5 : '5'.toNat = 53 := rfl
  rw [e4, e5]
  have h4 : intstringByte0 res.StatusCode = 52 ↔ res.StatusCode = 52 :=
    intstringByte0_eq_iff res.StatusCode 52 (by decide)
  have h5 : intstringByte0 res.StatusCode = 53 ↔ res.StatusCode = 53 :=
    intstringByte0_eq_iff res.StatusCode 53 (by decide)
  refine ⟨?_, h4, ?_, h5, ?_⟩
  · simp only [fetchEvents, hreq, hres, h404, if_false, e4, e5]
    split_ifs with c4 c5
    · simp [c4]
    · simp [c4]
    · cases env.Decode res.Body <;> simp [c4]
  · simp only [fetchEvents, hreq, hres, h404, if_false, e4, e5]
    split_ifs with c4 c5
    · have : ¬ intstringByte0 res.StatusCode = 53 := by
        rw [h5]; rw [h4] at c4; omega
      simp [this]
    · simp [c5]
    · cases env.Decode res.Body <;> simp [c5]
  · intro hlo hhi
    have c4 : ¬ intstringByte0 res.StatusCode = 52 := by rw [h4]; omega
    have c5 : ¬ intstringByte0 res.StatusCode = 53 := by rw [h5]; omega
    simp only [fetchEvents, hreq, hres, h404, c4, c5, if_false, e4, e5]
    cases env.Decode res.Body <;> simp

/-- C15, at the status 400. -/
theorem fetchEvents_status_byte_witness :
    ((fetchEvents (Env.answering 400 "[]" (.ok [])) "octocat").err
        = some (.New "client error") ↔ intstringByte0 400 = '4'.toNat) ∧
    (intstringByte0 400 = '4'.toNat ↔ (400 : Int) = 52) ∧
    ((fetchEvents (Env.answering 400 "[]" (.ok [])) "octocat").err
        = some (.New "server error") ↔ intstringByte0 400 = '5'.toNat) ∧
    (intstringByte0 400 = '5'.toNat ↔ (400 : Int) = 53) ∧
    ((400 : Int) ≤ 400 → (400 : Int) ≤ 599 →
      (fetchEvents (Env.answering 400 "[]" (.ok [])) "octocat").err
        ≠ some (.New "client error") ∧
      (fetchEvents (Env.answering 400 "[]" (.ok [])) "octocat").err
        ≠ some (.New "server error") ∧
      Effect.Decode ∈ (fetchEvents (Env.answering 400 "[]" (.ok [])) "octocat").trace) :=
  fetchEvents_status_byte (Env.answering 400 "[]" (.ok [])) "octocat"
    { Method := "GET", URL := "https://api.github.com/users/octocat/events" }
    { StatusCode := 400, Body := "[]" } rfl rfl (by decide)

theorem assertMap_eq_none_iff (x : Any) : assertMap x = none ↔ ¬ ∃ m, x = .map m := by
  cases x <;> simp [assertMap]

theorem assertString_eq_none_iff (x : Any) :
    assertString x = none ↔ ¬ ∃ a, x = .string a := by
  cases x <;> simp [assertString]

theorem Format_eq_none_iff (U : UnicodeTables) (e : event) :
    e.Format U = none ↔ failsAssertion e := by
  have hm := assertMap_eq_none_iff (index e.Payload "pull_request")
  have hr := assertMap_eq_none_iff (index e.Payload "release")
  have ha := assertString_eq_none_iff (index e.Payload "action")
  unfold failsAssertion
  rw [← hm, ← hr, ← ha]
  unfold event.Format
  simp only [PushEvent, WatchEvent, ForkEvent, CreateEvent, DeleteEvent, PullRequestEvent,
    ReleaseEvent, IssueEvent]
  by_cases h1 : e.Type_ = "PushEvent"
  · simp [h1]
  by_cases h2 : e.Type_ = "WatchEvent"
  · simp [h2]
  by_cases h3 : e.Type_ = "ForkEvent"
  · simp [h3]
  by_cases h4 : e.Type_ = "CreateEvent"
  · simp only [h4]
    simp only [String.reduceEq, if_false, if_true, false_and, or_false, iff_false]
    split <;> simp
  by_cases h5 : e.Type_ = "DeleteEvent"
  · simp only [h5]
    simp only [String.reduceEq, if_false, if_true, false_and, or_false, iff_false]
    split <;> simp
  by_cases h6 : e.Type_ = "PullRequestEvent"
  · simp only [h6]
    simp only [String.reduceEq, if_false, if_true, false_and, or_false, true_and]
    cases assertMap (index e.Payload "pull_request") <;>
      cases assertString (index e.Payload "action") <;> simp
  by_cases h7 : e.Type_ = "ReleaseEvent"
  · simp only [h7]
    simp only [String.reduceEq, if_false, if_true, false_and, or_false, false_or, true_and]
    cases assertMap (index e.Payload "release") <;>
      cases assertString (index e.Payload "action") <;> simp
  by_cases h8 : e.Type_ = "IssueEvent"
  · simp only [h8]
    simp only [String.reduceEq, if_false, if_true, false_and, or_false, false_or, true_and]
    cases assertString (index e.Payload "action") <;> simp
  · simp [h1, h2, h3, h4, h5, h6, h7, h8]

/-- C16: `Format` panics exactly on a PullRequest event whose `pull_request` is not a JSON
object or whose `action` is not a string, on a Release event whose `action` is not a string
or whose `release` is not a JSON object, and on an Issue event whose `action` is not a
string; on every other event it returns a string, in particular on every Push, Watch, Fork,
Create, Delete and unrecognised-type event, and on a PullRequest or Release event whose
nested object lacks `number` or `tag_name`. -/
theorem Format_panics_exactly (U : UnicodeTables) (e : event) :
    (e.Format U = none ↔ failsAssertion e) ∧
    (¬ failsAssertion e → ∃ line, e.Format U = some line) ∧
    (e.Type_ ∉ [PullRequestEvent, ReleaseEvent, IssueEvent] →
      ∃ line, e.Format U = some line) ∧
    (∀ a r, ∃ line,
      event.Format U
        { Type_ := PullRequestEvent,
          Payload := [("action", .string a), ("pull_request", .map [])],
          Repo := { Name := r } } = some line) ∧
    (∀ a r, ∃ line,
      event.Format U
        { Type_ := ReleaseEvent, Payload := [("action", .string a), ("release", .map [])],
          Repo := { Name := r } } = some line) := by
  have hiff := Format_eq_none_iff U e
  have htotal : ¬ failsAssertion e → ∃ line, e.Format U = some line := by
    intro hn
    cases hf : e.Format U with
    | none => exact absurd (hiff.mp hf) hn
    | some line => exact ⟨line, rfl⟩
  refine ⟨hiff, htotal, ?_, ?_, ?_⟩
  · intro ht
    simp only [List.mem_cons, List.mem_singleton, List.not_mem_nil, or_false, not_or] at ht
    apply htotal
    unfold failsAssertion
    simp [ht.1, ht.2.1, ht.2.2]
  · intro a r
    exact ⟨_, rfl⟩
  · intro a r
    exact ⟨_, rfl⟩

/-- C17 (the code departs from it): with status 404, and on the "client error" and "server
error" paths (status 52 and 53), `fetchEvents` returns without having closed the response
body; the body is closed only on the two paths after the `defer`, decode failure and
successful decode. -/
theorem fetchEvents_body_left_open :
    Effect.Close ∉ (fetchEvents (Env.answering 404 "" (.ok [])) "octocat").trace ∧
    (fetchEvents (Env.answering 404 "" (.ok [])) "octocat").err
      = some (.New "username not found") ∧
    Effect.Close ∉ (fetchEvents (Env.answering 52 "" (.ok [])) "octocat").trace ∧
    (fetchEvents (Env.answering 52 "" (.ok [])) "octocat").err
      = some (.New "client error") ∧
    Effect.Close ∉ (fetchEvents (Env.answering 53 "" (.ok [])) "octocat").trace ∧
    (fetchEvents (Env.answering 53 "" (.ok [])) "octocat").err
      = some (.New "server error") ∧
    Effect.Close ∈
      (fetchEvents (Env.answering 200 "[" (.error "unexpected EOF")) "octocat").trace ∧
    Effect.Close ∈ (fetchEvents (Env.answering 200 "[]" (.ok [])) "octocat").trace := by
  decide

/-- C18 (as stated it fails): with no argument after the program name, `args` is the
one-element slice holding the empty string, the read `args[0]` is in range, and `run` returns
the error "please provide username" instead of panicking. -/
theorem run_no_arguments_in_range :
    copy [""] [] = [""] ∧
    (copy [""] [])[0]? = some "" ∧
    (run asciiTables (Env.answering 200 "[]" (.ok [])) ["gh"]).ret
      = some (some (.New "please provide username")) ∧
    (run asciiTables (Env.answering 200 "[]" (.ok [])) ["gh"]).ret ≠ none := by
  decide

/-- C18 (amended): for every list of command-line arguments, the empty one included, `args`
has length 1 and the read `args[0]` is in range: it yields the first argument, or the empty
string when there is none, and the arguments after the first are ignored; with no argument
`run` returns the error "please provide username". -/
theorem args_index_in_range (U : UnicodeTables) (env : Env) (prog : String)
    (arguments : List String) :
    (copy [""] arguments).length = 1 ∧
    (copy [""] arguments)[0]? = some (arguments.headD "") ∧
    copy [""] arguments = [arguments.headD ""] ∧
    (run U env [prog]).ret = some (some (.New "please provide username")) := by
  cases arguments with
  | nil => exact ⟨rfl, rfl, rfl, rfl⟩
  | cons a rest => simp [copy]; rfl

/-- C19: when `http.NewRequest` rejects the URL built from the username, `fetchEvents`
returns no events and a nil error without any request being sent, `run` returns a nil error
and `main` prints the single line "no recent activity" and no "ERROR:" line. -/
theorem fetchEvents_request_rejected (U : UnicodeTables) (env : Env)
    (prog username msg : String) (rest : List String) (hname : username ≠ "")
    (hreq : env.NewRequest "GET" ("https://api.github.com/users/" ++ username ++ "/events")
      = .error msg) :
    (fetchEvents env username).events = [] ∧
    (fetchEvents env username).err = none ∧
    (fetchEvents env username).trace = [] ∧
    (run U env (prog :: username :: rest)).ret = some none ∧
    (main U env (prog :: username :: rest)).trace = [.Println "no recent activity"] ∧
    stdout (main U env (prog :: username :: rest)).trace = "no recent activity\n" := by
  have hf : fetchEvents env username = { events := [], err := none, trace := [] } := by
    simp only [fetchEvents, hreq]
  have hrun : run U env (prog :: username :: rest)
      = { trace := [.Println "no recent activity"], ret := some none } := by
    rw [run_of_args U env prog username rest hname, hf]
    rfl
  have hmain : (main U env (prog :: username :: rest)).trace
      = [.Println "no recent activity"] := by
    simp only [main, hrun]
  refine ⟨by rw [hf], by rw [hf], by rw [hf], by rw [hrun], hmain, ?_⟩
  rw [hmain]
  rfl

/-- C19, at a username with a line break in it. -/
theorem fetchEvents_request_rejected_witness :
    (fetchEvents (Env.rejecting "net/url: invalid control character in URL")
      "octo\ncat").events = [] ∧
    (fetchEvents (Env.rejecting "net/url: invalid control character in URL")
      "octo\ncat").err = none ∧
    (fetchEvents (Env.rejecting "net/url: invalid control character in URL")
      "octo\ncat").trace = [] ∧
    (run asciiTables (Env.rejecting "net/url: invalid control character in URL")
      ["gh", "octo\ncat"]).ret = some none ∧
    (main asciiTables (Env.rejecting "net/url: invalid control character in URL")
      ["gh", "octo\ncat"]).trace = [.Println "no recent activity"] ∧
    stdout (main asciiTables (Env.rejecting "net/url: invalid control character in URL")
      ["gh", "octo\ncat"]).trace = "no recent activity\n" :=
  fetchEvents_request_rejected asciiTables
    (Env.rejecting "net/url: invalid control character in URL") "gh" "octo\ncat"
    "net/url: invalid control character in URL" [] (by decide) rfl

end GithubUserActivity
